import Mathlib

/-!
Verification development for the `insecres` crawler (src/main.go).

The development shallowly embeds the program's two Go source parts:
the crawl scheduler (`crawl`, `fetchUrl`, `startUrl`, `main`) and the
page scanner / URL classifier (`ResourceAndLinkFinder`).  The scanner
leans on the Go standard library `net/url` (Parse, URL.String,
URL.ResolveReference) and on `strings` helpers; those collaborators are
embedded below from the stdlib sources of the Go era of this repository
(≈ go1.10).  Percent-escaping, userinfo and host-character validation of
`net/url` are elided: Path, Host and Fragment are carried verbatim, which
is faithful for every input considered here.
-/

/-! ## Go `strings` helpers -/

/-- `strings.HasPrefix s pre`. -/
def goHasPrefix (s pre : String) : Bool :=
  pre.toList.isPrefixOf s.toList

/-- `strings.HasSuffix s suf`. -/
def goHasSuffix (s suf : String) : Bool :=
  suf.toList.isSuffixOf s.toList

/-- `strings.TrimPrefix s pre`: drop `pre` once if it is a prefix of `s`. -/
def goTrimPrefix (s pre : String) : String :=
  if goHasPrefix s pre then ((s.toList).drop pre.toList.length).asString else s

/-- `strings.TrimSuffix s suf`: drop `suf` once if it is a suffix of `s`. -/
def goTrimSuffix (s suf : String) : String :=
  if goHasSuffix s suf then ((s.toList).take (s.toList.length - suf.toList.length)).asString
  else s

/-- `strings.ContainsRune`‑style membership used by the query splitting. -/
def goContainsChar (s : String) (c : Char) : Bool :=
  s.toList.contains c

/-- `net/url`'s `split(s, c, true)`: the part before the first `c` and the
part after it (the separator removed); `(s, "")` when `c` is absent. -/
def cutChar (s : String) (c : Char) : String × String :=
  match (s.toList.span (fun x => x ≠ c)) with
  | (pre, []) => (pre.asString, "")
  | (pre, _ :: post) => (pre.asString, post.asString)

/-- `net/url`'s `split(s, c, false)`: like `cutChar` but the second part
keeps the separator. -/
def cutCharKeep (s : String) (c : Char) : String × String :=
  match (s.toList.span (fun x => x ≠ c)) with
  | (pre, post) => (pre.asString, post.asString)

/-! ## The `net/url` model -/

/-- Go's `url.URL` (the fields this program touches; `User`, `RawPath` and
escaping are elided). -/
structure GoURL where
  Scheme : String := ""
  Opaque : String := ""
  Host : String := ""
  Path : String := ""
  RawQuery : String := ""
  ForceQuery : Bool := false
  Fragment : String := ""
deriving Repr, DecidableEq

/-- `url.URL.IsAbs`: a URL is absolute when it carries a scheme. -/
def GoURL.IsAbs (u : GoURL) : Bool :=
  u.Scheme != ""

/-- `net/url`'s `getscheme`, walking the raw string: letters continue, a
digit or `+ - .` continues except in first position, `:` closes the
scheme (an error in first position), anything else means no scheme. -/
def getschemeAux (raw : List Char) : List Char → Nat → Except String (String × String)
  | [], _ => .ok ("", raw.asString)
  | c :: cs, i =>
    if ('a' ≤ c ∧ c ≤ 'z') ∨ ('A' ≤ c ∧ c ≤ 'Z') then getschemeAux raw cs (i + 1)
    else if ('0' ≤ c ∧ c ≤ '9') ∨ c = '+' ∨ c = '-' ∨ c = '.' then
      if i = 0 then .ok ("", raw.asString) else getschemeAux raw cs (i + 1)
    else if c = ':' then
      if i = 0 then .error "missing protocol scheme"
      else .ok ((raw.take i).asString, (raw.drop (i + 1)).asString)
    else .ok ("", raw.asString)

def getscheme (raw : String) : Except String (String × String) :=
  getschemeAux raw.toList raw.toList 0

/-- ASCII lowering of the scheme (`strings.ToLower`). -/
def asciiLower (s : String) : String :=
  (s.toList.map Char.toLower).asString

/-- `parseAuthority`: the userinfo before the last `@` is dropped, the
host is taken verbatim (host validation elided). -/
def parseAuthority (authority : String) : String :=
  ((authority.toList.reverse.takeWhile (fun c => c ≠ '@')).reverse).asString

/-- The `parse` step splitting the query: a sole trailing `?` sets
`ForceQuery`, otherwise the query is everything after the first `?`.
Returns (ForceQuery, rest, RawQuery). -/
def splitQuery (rest0 : String) : Bool × String × String :=
  if goHasSuffix rest0 "?" && !(goContainsChar (goTrimSuffix rest0 "?") '?') then
    (true, (rest0.toList.dropLast).asString, "")
  else
    ((false : Bool), (cutChar rest0 '?').1, (cutChar rest0 '?').2)

/-- First path segment of a rootless rest contains a `:` (the
`cache_object:foo/bar` guard of `parse`). -/
def hasColonBeforeSlash (s : String) : Bool :=
  match s.toList.findIdx? (fun c => c = ':'), s.toList.findIdx? (fun c => c = '/') with
  | none, _ => false
  | some _, none => true
  | some ci, some si => decide (ci < si)

/-- Body of `net/url`'s `parse` after scheme and query have been split
off (`viaRequest = false`): a rootless rest with a scheme is `Opaque`; a
rootless rest without a scheme may not have a `:` in its first segment;
a `//` rest (not `///` unless a scheme is present) carries an authority;
everything else is the path. -/
def parseUrlCore (schemeL rest rawQuery : String) (forceQuery : Bool) :
    Except String GoURL :=
  if !(goHasPrefix rest "/") && schemeL != "" then
    .ok { Scheme := schemeL, Opaque := rest, RawQuery := rawQuery, ForceQuery := forceQuery }
  else if !(goHasPrefix rest "/") && hasColonBeforeSlash rest then
    .error "first path segment in URL cannot contain colon"
  else if (schemeL != "" || !(goHasPrefix rest "///")) && goHasPrefix rest "//" then
    .ok { Scheme := schemeL,
          Host := parseAuthority (cutCharKeep ((rest.toList.drop 2).asString) '/').1,
          Path := (cutCharKeep ((rest.toList.drop 2).asString) '/').2,
          RawQuery := rawQuery, ForceQuery := forceQuery }
  else
    .ok { Scheme := schemeL, Path := rest, RawQuery := rawQuery, ForceQuery := forceQuery }

/-- `net/url`'s `parse(rawurl, false)`. -/
def parseUrl (rawurl : String) : Except String GoURL :=
  if rawurl == "*" then .ok { Path := "*" }
  else
    match getscheme rawurl with
    | .error e => .error e
    | .ok (scheme0, rest0) =>
      parseUrlCore (asciiLower scheme0) (splitQuery rest0).2.1 (splitQuery rest0).2.2
        (splitQuery rest0).1

/-- `url.Parse`: the fragment is cut off first, the rest is parsed, the
fragment is reattached (unescaping elided). -/
def urlParse (rawurl : String) : Except String GoURL :=
  match parseUrl (cutChar rawurl '#').1 with
  | .error e => .error e
  | .ok url => .ok { url with Fragment := (cutChar rawurl '#').2 }

/-- `url.URL.String` (go1.10 shape): `scheme:`, then the opaque part, or
else `//host` whenever a scheme or host is present, a separating `/` for
a rootless path under a host, the path, `?query`, `#fragment`. -/
def GoURL.toString (u : GoURL) : String :=
  (if u.Scheme != "" then u.Scheme ++ ":" else "") ++
  (if u.Opaque != "" then u.Opaque
   else
     (if u.Scheme != "" || u.Host != "" then "//" ++ u.Host else "") ++
     (if u.Path != "" && !(goHasPrefix u.Path "/") && u.Host != "" then "/" else "") ++
     u.Path) ++
  (if u.ForceQuery || u.RawQuery != "" then "?" ++ u.RawQuery else "") ++
  (if u.Fragment != "" then "#" ++ u.Fragment else "")

/-- `strings.Split(s, "/")` on a single-character separator, written by
structural recursion (Lean's own splitter is not kernel-reducible). -/
def splitOnCharAux (c : Char) : List Char → List Char → List String
  | [], acc => [acc.reverse.asString]
  | x :: xs, acc =>
    if x = c then acc.reverse.asString :: splitOnCharAux c xs []
    else splitOnCharAux c xs (x :: acc)

def splitOnChar (s : String) (c : Char) : List String :=
  splitOnCharAux c s.toList []

/-- `base[:i+1]` for `i = strings.LastIndex(base, "/")`: everything up to
and including the last slash, `""` when there is none. -/
def upToLastSlash (base : String) : String :=
  ((base.toList.reverse.dropWhile (fun c => c ≠ '/')).reverse).asString

/-- The segment pass of `net/url`'s `resolvePath`: `.` is dropped, `..`
pops, anything else is appended. -/
def resolvePathDst (src : List String) : List String :=
  src.foldl
    (fun dst elem =>
      if elem = "." then dst
      else if elem = ".." then dst.dropLast
      else dst ++ [elem]) []

/-- `net/url`'s `resolvePath` (go1.10 shape): merge `ref` onto `base`,
remove dot segments, re-add a trailing slash after a final `.`/`..`, and
root the result. -/
def resolvePath (base ref : String) : String :=
  let full :=
    if ref = "" then base
    else if !(goHasPrefix ref "/") then upToLastSlash base ++ ref
    else ref
  if full = "" then ""
  else
    let src := splitOnChar full '/'
    let dst := resolvePathDst src
    let dst :=
      if (src.getLast?).getD "" = "." ∨ (src.getLast?).getD "" = ".." then dst ++ [""]
      else dst
    "/" ++ goTrimPrefix (String.intercalate "/" dst) "/"

/-- `url.URL.ResolveReference` (go1.10 shape, `User` elided): an absolute
or authority-carrying reference stands alone; an opaque reference keeps
only its own data; otherwise query/fragment are inherited for an empty
reference and the path is resolved against the base. -/
def resolveReference (u ref : GoURL) : GoURL :=
  let url : GoURL := { ref with Scheme := if ref.Scheme == "" then u.Scheme else ref.Scheme }
  if ref.Scheme != "" || ref.Host != "" then
    { url with Path := resolvePath ref.Path "" }
  else if ref.Opaque != "" then
    { url with Host := "", Path := "" }
  else
    let url :=
      if ref.Path == "" && ref.RawQuery == "" then
        let url := { url with RawQuery := u.RawQuery }
        if ref.Fragment == "" then { url with Fragment := u.Fragment } else url
      else url
    { url with Host := u.Host, Path := resolvePath u.Path ref.Path }

/-! ## The `golang.org/x/net/html` token interface -/

/-- `html.TokenType`. -/
inductive TokenType where
  | ErrorToken
  | TextToken
  | StartTagToken
  | EndTagToken
  | SelfClosingTagToken
  | CommentToken
  | DoctypeToken
deriving Repr, DecidableEq

/-- `html.Attribute` (the `Namespace` field is unused by this program). -/
structure HtmlAttribute where
  Key : String
  Val : String
deriving Repr, DecidableEq

/-- `html.Token`: a tag classification, the tag name (`Data`) and the
ordered attribute list.  The Go field `Type` is called `ty` here because
`Type` is reserved in Lean. -/
structure Token where
  ty : TokenType
  Data : String
  Attr : List HtmlAttribute
deriving Repr, DecidableEq

/-! ## `ResourceAndLinkFinder` (finder.go part of src/main.go) -/

/-- `isResourceToken`: a self-closing `img`, or a start tag among
`iframe`, `object`, `video`, `audio`, `source`, `track`. -/
def ResourceAndLinkFinder.isResourceToken (token : Token) : Bool :=
  if token.ty = TokenType.SelfClosingTagToken ∧ token.Data = "img" then true
  else if token.ty = TokenType.StartTagToken ∧
      (token.Data = "iframe" ∨ token.Data = "object" ∨ token.Data = "video" ∨
       token.Data = "audio" ∨ token.Data = "source" ∨ token.Data = "track") then true
  else false

/-- `isTargetedResourceTokenAttribute`: `data` on an `object` tag, and
`src` or `poster` on any tag. -/
def ResourceAndLinkFinder.isTargetedResourceTokenAttribute
    (token : Token) (attr : HtmlAttribute) : Bool :=
  if token.Data == "object" && attr.Key == "data" then true
  else if attr.Key == "src" || attr.Key == "poster" then true
  else false

/-- Update-or-append on the association list standing in for the Go map
`result[attr.Key] = v` of `processResourceToken`. -/
def mapSet (m : List (String × String)) (k v : String) : List (String × String) :=
  if m.any (fun p => p.1 == k) then
    m.map (fun p => if p.1 == k then (k, v) else p)
  else m ++ [(k, v)]

/-- `processResourceToken`: each targeted attribute whose value parses to
an absolute URL that is neither `https` nor a host-carrying `//...` form
is recorded under its attribute key; an empty result is the error
"Targeted attributes have not been found.". -/
def ResourceAndLinkFinder.processResourceToken (token : Token) :
    Except String (List (String × String)) :=
  let result := token.Attr.foldl
    (fun m attr =>
      if !(ResourceAndLinkFinder.isTargetedResourceTokenAttribute token attr) then m
      else
        match urlParse attr.Val with
        | .error _ => m
        | .ok uri =>
          if !uri.IsAbs || uri.Scheme == "https" ||
              (uri.Host != "" && goHasPrefix (GoURL.toString uri) "//") then m
          else mapSet m attr.Key (GoURL.toString uri)) []
  if result = [] then .error "Targeted attributes have not been found. Skipped."
  else .ok result

/-- `isLinkToken`: an `a` start tag. -/
def ResourceAndLinkFinder.isLinkToken (token : Token) : Bool :=
  token.ty = TokenType.StartTagToken ∧ token.Data = "a"

/-- `convertToAbsolute`: `base.ResolveReference(source)`. -/
def ResourceAndLinkFinder.convertToAbsolute (source base : GoURL) : GoURL :=
  resolveReference base source

/-- The attribute loop of `processLinkToken`: the first `href` attribute
decides; `#...` values are the anchor error; parse failures propagate;
an absolute or host-carrying `//...` value must match the base host up
to a leading `www.` and is returned as its own string; anything else is
resolved against the base.  Either returned string has one trailing `/`
stripped. -/
def ResourceAndLinkFinder.processLinkTokenAux (base : String) :
    List HtmlAttribute → Except String String
  | [] => .error "Src has not been found. Skipped."
  | attr :: rest =>
    if attr.Key != "href" then ResourceAndLinkFinder.processLinkTokenAux base rest
    else if goHasPrefix attr.Val "#" then .error "Url is an anchor. Skipped."
    else
      match urlParse attr.Val with
      | .error e => .error e
      | .ok uri =>
        match urlParse base with
        | .error e => .error e
        | .ok baseUrl =>
          if uri.IsAbs || (uri.Host != "" && goHasPrefix (GoURL.toString uri) "//") then
            if goTrimPrefix uri.Host "www." != goTrimPrefix baseUrl.Host "www." then
              .error "Url is expernal. Skipped."
            else .ok (goTrimSuffix (GoURL.toString uri) "/")
          else
            .ok (goTrimSuffix
              (GoURL.toString (ResourceAndLinkFinder.convertToAbsolute uri baseUrl)) "/")

/-- `processLinkToken`. -/
def ResourceAndLinkFinder.processLinkToken (token : Token) (base : String) :
    Except String String :=
  ResourceAndLinkFinder.processLinkTokenAux base token.Attr

/-- `processLinkToken` with the two `strings.TrimSuffix(..., "/")`
normalizations removed — the comparison definition for the
normalization claim; everything else is identical. -/
def ResourceAndLinkFinder.processLinkTokenUnnormalizedAux (base : String) :
    List HtmlAttribute → Except String String
  | [] => .error "Src has not been found. Skipped."
  | attr :: rest =>
    if attr.Key != "href" then ResourceAndLinkFinder.processLinkTokenUnnormalizedAux base rest
    else if goHasPrefix attr.Val "#" then .error "Url is an anchor. Skipped."
    else
      match urlParse attr.Val with
      | .error e => .error e
      | .ok uri =>
        match urlParse base with
        | .error e => .error e
        | .ok baseUrl =>
          if uri.IsAbs || (uri.Host != "" && goHasPrefix (GoURL.toString uri) "//") then
            if goTrimPrefix uri.Host "www." != goTrimPrefix baseUrl.Host "www." then
              .error "Url is expernal. Skipped."
            else .ok (GoURL.toString uri)
          else
            .ok (GoURL.toString (ResourceAndLinkFinder.convertToAbsolute uri baseUrl))

def ResourceAndLinkFinder.processLinkTokenUnnormalized (token : Token) (base : String) :
    Except String String :=
  ResourceAndLinkFinder.processLinkTokenUnnormalizedAux base token.Attr

/-- Set-insert standing in for `resourceMap[uri] = true` /
`linkMap[uri] = true` in `Parse` (the Go maps deduplicate; insertion
order is kept here as the canonical enumeration order). -/
def insertNew (l : List String) (s : String) : List String :=
  if l.contains s then l else l ++ [s]

/-- The token walk of `Parse`: stop at the first `ErrorToken`; resource
tokens contribute their classified attribute values, link tokens their
classified `href`; per-token classification errors are skipped. -/
def ResourceAndLinkFinder.parseLoop (baseUrl : String) :
    List String → List String → List Token → List String × List String
  | rs, ls, [] => (rs, ls)
  | rs, ls, tok :: rest =>
    if tok.ty = TokenType.ErrorToken then (rs, ls)
    else if ResourceAndLinkFinder.isResourceToken tok then
      match ResourceAndLinkFinder.processResourceToken tok with
      | .error _ => ResourceAndLinkFinder.parseLoop baseUrl rs ls rest
      | .ok uris =>
        ResourceAndLinkFinder.parseLoop baseUrl
          (uris.foldl (fun r p => insertNew r p.2) rs) ls rest
    else if ResourceAndLinkFinder.isLinkToken tok then
      match ResourceAndLinkFinder.processLinkToken tok baseUrl with
      | .error _ => ResourceAndLinkFinder.parseLoop baseUrl rs ls rest
      | .ok uri => ResourceAndLinkFinder.parseLoop baseUrl rs (insertNew ls uri) rest
    else ResourceAndLinkFinder.parseLoop baseUrl rs ls rest

/-- `Parse`: walk the token stream and return the collected resource and
link URLs; the Go function's error result is always `nil`, rendered here
as the `Except` always being `.ok`. -/
def ResourceAndLinkFinder.Parse (baseUrl : String) (tokens : List Token) :
    Except String (List String × List String) :=
  .ok (ResourceAndLinkFinder.parseLoop baseUrl [] [] tokens)

/-! ## The crawl scheduler (main.go part of src/main.go) -/

/-- Modelled from the spec: the `Registry` implementation (its `IsNew`
and `MarkAsProcessed` methods) is not under src/ — only the call sites
in `crawl` and `fetchUrl` are.  Per §4.1 it is a set of processed URL
strings; each single operation is atomic (mutex-guarded), `IsNew`
reporting absence and `MarkAsProcessed` inserting. -/
structure Registry where
  processed : List String
deriving Repr, DecidableEq

def Registry.IsNew (r : Registry) (url : String) : Bool :=
  !(r.processed.contains url)

def Registry.MarkAsProcessed (r : Registry) (url : String) : Registry :=
  ⟨url :: r.processed⟩

/-- A state of the scheduler/task interleaving: the shared registry, the
URLs whose `fetchUrl` goroutine has been spawned but has not yet executed
its first statement `registry.MarkAsProcessed(url)`, and the history of
all URLs ever dispatched to a `fetchUrl` task. -/
structure CrawlState where
  registry : Registry
  pending : List String
  dispatched : List String
deriving Repr, DecidableEq

/-- One scheduler-visible event: `deliver url` is the scheduler loop
receiving `url` from the queue, checking `registry.IsNew(url)` and — when
new — spawning `go fetchUrl(url, ...)`; `runMark url` is a spawned
goroutine getting scheduled and executing `registry.MarkAsProcessed(url)`. -/
inductive CrawlEvent where
  | deliver (url : String)
  | runMark (url : String)
deriving Repr, DecidableEq

def crawlStep (s : CrawlState) : CrawlEvent → CrawlState
  | .deliver url =>
    if s.registry.IsNew url then
      { s with pending := url :: s.pending, dispatched := url :: s.dispatched }
    else s
  | .runMark url =>
    if s.pending.contains url then
      { registry := s.registry.MarkAsProcessed url,
        pending := s.pending.erase url,
        dispatched := s.dispatched }
    else s

def crawlRun (s : CrawlState) (es : List CrawlEvent) : CrawlState :=
  es.foldl crawlStep s

/-- The `select` loop of `crawl` viewed on its silence flag: a queue
arrival clears the flag (and is handled), a tick with the flag clear only
sets it, a tick with the flag set terminates the crawl (`none`). -/
inductive LoopEvent where
  | arrival
  | tick
deriving Repr, DecidableEq

def loopStep (flag : Bool) : LoopEvent → Option Bool
  | .arrival => some false
  | .tick => if flag then none else some true

/-- Run the scheduler loop over an event trace; `none` means it
terminated within the trace, `some flag` that it is still running. -/
def loopRun : Bool → List LoopEvent → Option Bool
  | flag, [] => some flag
  | flag, e :: es =>
    match loopStep flag e with
    | none => none
    | some f => loopRun f es

/-! ## `fetchUrl`, `startUrl` and `main` -/

/-- `fmt.Errorf`: formats an error value (it prints nothing). -/
def fmtErrorf (format : String) (arg : String) : String :=
  format ++ arg

/-- The observable effects of `fetchUrl` after `MarkAsProcessed`, as a
function of the fetch outcome: the lines printed to standard output and
the URLs sent to the queue.  On a fetch error the code builds an error
value with `fmt.Errorf` and discards it, then returns — nothing is
printed and nothing is enqueued. -/
def fetchUrlEffects (url : String)
    (fetchResult : Except String (List String × List String)) :
    List String × List String :=
  match fetchResult with
  | .error e =>
    let _discarded := fmtErrorf "Error occured: " e
    ([], [])
  | .ok (insecureResourceUrls, pageUrls) =>
    (insecureResourceUrls.map (fun r => url ++ ": " ++ r), pageUrls)

/-- `startUrl`: the first positional argument, or a usage error when it
is missing.  No shape validation is performed on the argument. -/
def startUrl (args : List String) : Except String String :=
  if args.length < 1 then
    .error "Please specify the HTTPS address of the site, e.g. https://example.com"
  else .ok (args.headD "")

/-- The process exit code of `main`: `os.Exit(1)` when `startUrl` errors,
otherwise `crawl` runs and `main` returns normally (exit code 0). -/
def mainExitCode (args : List String) : Nat :=
  match startUrl args with
  | .error _ => 1
  | .ok _ => 0

/-! ## General lemmas -/

theorem goToList_append (a b : String) : (a ++ b).toList = a.toList ++ b.toList := by
  cases a; cases b; rfl

/-! ## Claim C1 — the admission race (code bug) -/

/-- Claim C1: the claim states that admission happens at most once per URL,
the check-and-mark behaving as one atomic insert-if-absent.  The code splits
the check (`IsNew`, in the scheduler loop) from the mark (`MarkAsProcessed`,
inside the spawned goroutine): delivering the same URL twice before the
first goroutine has run its mark step dispatches two fetch tasks for it,
while the serialized schedule dispatches it once. -/
theorem crawl_dispatches_same_url_twice :
  (crawlRun ⟨⟨[]⟩, [], []⟩
      [.deliver "https://example.com/p", .deliver "https://example.com/p"]).dispatched
    = ["https://example.com/p", "https://example.com/p"] ∧
  (crawlRun ⟨⟨[]⟩, [], []⟩
      [.deliver "https://example.com/p", .runMark "https://example.com/p",
       .deliver "https://example.com/p"]).dispatched
    = ["https://example.com/p"] := ⟨rfl, rfl⟩

/-! ## Claim C2 — image tokens -/

/-- Claim C2 counterexample: an ordinary `img` start tag token is not
treated as resource-bearing, contradicting "self-closing or not". -/
theorem isResourceToken_false_for_img_start_tag :
  ResourceAndLinkFinder.isResourceToken
    ⟨.StartTagToken, "img", [⟨"src", "http://insecure.example.com/a.png"⟩]⟩ = false := rfl

/-- Claim C2 amended: an image token is resource-bearing exactly when it is
a self-closing tag token; an `img` start tag token never is, whatever its
attributes. -/
theorem isResourceToken_img_only_when_self_closing (attrs : List HtmlAttribute) :
  ResourceAndLinkFinder.isResourceToken ⟨.SelfClosingTagToken, "img", attrs⟩ = true ∧
  ResourceAndLinkFinder.isResourceToken ⟨.StartTagToken, "img", attrs⟩ = false := ⟨rfl, rfl⟩

/-! ## Claim C3 — trailing-slash normalization -/

/-- Claim C3 counterexample: an accepted resource URL keeps its trailing
slash — `processResourceToken` performs no trailing-slash stripping. -/
theorem processResourceToken_keeps_trailing_slash :
  ResourceAndLinkFinder.processResourceToken
      ⟨.SelfClosingTagToken, "img", [⟨"src", "http://example.com/"⟩]⟩
    = .ok [("src", "http://example.com/")] ∧
  goHasSuffix "http://example.com/" "/" = true := ⟨rfl, rfl⟩

/-! ## Claim C4 — the insecure-resource condition -/

/-- Claim C4 counterexample: a non-http, non-https absolute candidate
(`ftp` scheme) is accepted as an insecure resource, contradicting
"scheme is the insecure transport variant (http)". -/
theorem processResourceToken_accepts_nonhttp_scheme :
  ResourceAndLinkFinder.processResourceToken
      ⟨.SelfClosingTagToken, "img", [⟨"src", "ftp://example.com/x"⟩]⟩
    = .ok [("src", "ftp://example.com/x")] ∧
  urlParse "ftp://example.com/x" = .ok { Scheme := "ftp", Host := "example.com", Path := "/x" }
  := ⟨rfl, rfl⟩

/-! ## Claim C8 — exit codes -/

/-- Claim C8 counterexample: a supplied start URL is never validated — a
malformed (non-https) argument still leads to a crawl and exit code 0,
contradicting "non-zero when ... malformed". -/
theorem main_exit_zero_on_malformed_start :
  mainExitCode ["http://example.com"] = 0 ∧
  urlParse "http://example.com" = .ok { Scheme := "http", Host := "example.com" } := ⟨rfl, rfl⟩

/-- Claim C8 amended: the process exits non-zero exactly when the start URL
argument is missing; any supplied argument is accepted verbatim and the
exit code is 0. -/
theorem main_exit_nonzero_iff_missing_arg :
  mainExitCode [] = 1 ∧
  ∀ (a : String) (rest : List String),
    mainExitCode (a :: rest) = 0 ∧ startUrl (a :: rest) = .ok a := by
  refine ⟨rfl, fun a rest => ⟨rfl, ?_⟩⟩
  simp [startUrl]

/-! ## Claim C9 — fetch failures (code bug in logging) -/

/-- Claim C9: a failed fetch contributes zero printed report lines and zero
queue entries — but the first component being empty also shows the failure
is not logged: `fmt.Errorf` only builds an error value, which `fetchUrl`
discards without printing. -/
theorem fetchUrl_fetch_error_prints_nothing :
  fetchUrlEffects "https://example.com" (.error "connection refused") = ([], []) := rfl

/-! ## Claim C10 — relative candidates -/

/-- Claim C10 counterexample: `"#x"` parses with neither scheme nor host
(a relative reference), yet the classifier rejects it (as an anchor)
instead of accepting its resolution against the base. -/
theorem processLinkToken_rejects_relative_anchor :
  urlParse "#x" = .ok { Fragment := "x" } ∧
  ResourceAndLinkFinder.processLinkToken
      ⟨.StartTagToken, "a", [⟨"href", "#x"⟩]⟩ "https://example.com"
    = .error "Url is an anchor. Skipped." := ⟨rfl, rfl⟩

/-! ## Claim C6 — quiescence detection -/

theorem loopRun_none_iff (es : List LoopEvent) : ∀ b : Bool,
    loopRun b es = none ↔
      (∃ l r, es = l ++ .tick :: .tick :: r) ∨ (b = true ∧ ∃ r, es = .tick :: r) := by
  induction es with
  | nil =>
    intro b
    simp [loopRun]
  | cons e es ih =>
    intro b
    cases e with
    | arrival =>
      have hstep : loopRun b (.arrival :: es) = loopRun false es := rfl
      rw [hstep, ih false]
      constructor
      · rintro (⟨l, r, hl⟩ | ⟨h, _⟩)
        · exact Or.inl ⟨.arrival :: l, r, by simp [hl]⟩
        · cases h
      · rintro (⟨l, r, hl⟩ | ⟨_, r, hr⟩)
        · cases l with
          | nil => cases hl
          | cons a l =>
            cases hl
            exact Or.inl ⟨l, r, rfl⟩
        · cases hr
    | tick =>
      cases b with
      | true =>
        have hstep : loopRun true (.tick :: es) = none := rfl
        rw [hstep]
        constructor
        · intro _
          exact Or.inr ⟨rfl, es, rfl⟩
        · intro _
          rfl
      | false =>
        have hstep : loopRun false (.tick :: es) = loopRun true es := rfl
        rw [hstep, ih true]
        constructor
        · rintro (⟨l, r, hl⟩ | ⟨_, r, hr⟩)
          · exact Or.inl ⟨.tick :: l, r, by simp [hl]⟩
          · exact Or.inl ⟨[], r, by simp [hr]⟩
        · rintro (⟨l, r, hl⟩ | ⟨h, _⟩)
          · cases l with
            | nil =>
              cases hl
              exact Or.inr ⟨rfl, r, rfl⟩
            | cons a l =>
              cases hl
              exact Or.inl ⟨l, r, rfl⟩
          · cases h

/-- Claim C6: on the silence-flag view of the scheduler loop, an arrival
always resets the flag and keeps the loop running; a tick after activity
only sets the flag; a tick with the flag set terminates; and over any
event trace started with a clear flag, the loop terminates exactly when
the trace contains two consecutive ticks with no arrival in between. -/
theorem crawl_terminates_iff_two_consecutive_silent_ticks :
  (∀ b : Bool, loopStep b .arrival = some false) ∧
  loopStep false .tick = some true ∧
  loopStep true .tick = none ∧
  ∀ es : List LoopEvent,
    loopRun false es = none ↔ ∃ l r, es = l ++ .tick :: .tick :: r := by
  refine ⟨fun b => rfl, rfl, rfl, fun es => ?_⟩
  rw [loopRun_none_iff es false]
  simp

/-! ## Claim C7 — the scanner never fails -/

theorem parseLoop_stops_at_error (base : String) (post : List Token) (d : String)
    (a : List HtmlAttribute) :
    ∀ (pre : List Token) (rs ls : List String),
      ResourceAndLinkFinder.parseLoop base rs ls (pre ++ ⟨.ErrorToken, d, a⟩ :: post)
        = ResourceAndLinkFinder.parseLoop base rs ls pre := by
  intro pre
  induction pre with
  | nil =>
    intro rs ls
    simp [ResourceAndLinkFinder.parseLoop]
  | cons t ts ih =>
    intro rs ls
    rw [List.cons_append]
    by_cases h1 : t.ty = TokenType.ErrorToken
    · simp [ResourceAndLinkFinder.parseLoop, h1]
    · by_cases h2 : ResourceAndLinkFinder.isResourceToken t
      · cases hp : ResourceAndLinkFinder.processResourceToken t with
        | error e => simp [ResourceAndLinkFinder.parseLoop, h1, h2, hp, ih]
        | ok uris => simp [ResourceAndLinkFinder.parseLoop, h1, h2, hp, ih]
      · by_cases h3 : ResourceAndLinkFinder.isLinkToken t
        · cases hp : ResourceAndLinkFinder.processLinkToken t base with
          | error e => simp [ResourceAndLinkFinder.parseLoop, h1, h2, h3, hp, ih]
          | ok uri => simp [ResourceAndLinkFinder.parseLoop, h1, h2, h3, hp, ih]
        · simp [ResourceAndLinkFinder.parseLoop, h1, h2, h3, ih]

/-- Claim C7: for every base URL and token stream, `Parse` returns a
success — the collected resource and link lists — and it stops at the
first terminal `ErrorToken`, returning what was collected up to there;
tokens after a terminal error never change the result. -/
theorem Parse_always_succeeds_stops_at_error :
  (∀ (base : String) (toks : List Token), ∃ rs ls,
     ResourceAndLinkFinder.Parse base toks = .ok (rs, ls)) ∧
  (∀ (base : String) (pre post : List Token) (d : String) (a : List HtmlAttribute),
     ResourceAndLinkFinder.Parse base (pre ++ ⟨.ErrorToken, d, a⟩ :: post)
       = ResourceAndLinkFinder.Parse base pre) := by
  constructor
  · intro base toks
    exact ⟨(ResourceAndLinkFinder.parseLoop base [] [] toks).1,
      (ResourceAndLinkFinder.parseLoop base [] [] toks).2,
      by simp [ResourceAndLinkFinder.Parse]⟩
  · intro base pre post d a
    simp [ResourceAndLinkFinder.Parse, parseLoop_stops_at_error]

theorem processLinkTokenAux_normalizes (base : String) :
    ∀ attrs : List HtmlAttribute,
      ResourceAndLinkFinder.processLinkTokenAux base attrs
        = Except.map (fun u => goTrimSuffix u "/")
            (ResourceAndLinkFinder.processLinkTokenUnnormalizedAux base attrs) := by
  intro attrs
  induction attrs with
  | nil => rfl
  | cons attr rest ih =>
    simp only [ResourceAndLinkFinder.processLinkTokenAux,
      ResourceAndLinkFinder.processLinkTokenUnnormalizedAux]
    by_cases h1 : (attr.Key != "href") = true
    · simp [h1, ih]
    · simp only [h1]
      by_cases h2 : goHasPrefix attr.Val "#" = true
      · simp [h2, Except.map]
      · simp only [h2]
        cases hv : urlParse attr.Val with
        | error e => simp [Except.map]
        | ok uri =>
          cases hb : urlParse base with
          | error e => simp [Except.map]
          | ok baseUrl =>
            by_cases h3 :
                (uri.IsAbs || (uri.Host != "" && goHasPrefix (GoURL.toString uri) "//")) = true
            · by_cases h4 :
                  (goTrimPrefix uri.Host "www." != goTrimPrefix baseUrl.Host "www.") = true
              · simp [h3, h4, Except.map]
              · simp [h3, h4, Except.map]
            · simp [h3, Except.map]

/-- Claim C3 amended: only link URLs are normalized — `processLinkToken`
equals its unnormalized variant with exactly one trailing `/` stripped
from every accepted URL, while `processResourceToken` returns accepted
resource URLs as parsed, trailing slash intact. -/
theorem link_urls_normalized_resource_urls_not :
  (∀ (token : Token) (base : String),
     ResourceAndLinkFinder.processLinkToken token base
       = Except.map (fun u => goTrimSuffix u "/")
           (ResourceAndLinkFinder.processLinkTokenUnnormalized token base)) ∧
  ResourceAndLinkFinder.processResourceToken
      ⟨.SelfClosingTagToken, "img", [⟨"src", "http://example.com/"⟩]⟩
    = .ok [("src", "http://example.com/")] :=
  ⟨fun token base => processLinkTokenAux_normalizes base token.Attr, rfl⟩

/-! ## Claim C4 — acceptance condition of the resource classifier -/

theorem processResourceToken_single (v : String) :
    ResourceAndLinkFinder.processResourceToken ⟨.SelfClosingTagToken, "img", [⟨"src", v⟩]⟩
      = (match urlParse v with
         | .error _ => .error "Targeted attributes have not been found. Skipped."
         | .ok uri =>
           if !uri.IsAbs || uri.Scheme == "https" ||
               (uri.Host != "" && goHasPrefix (GoURL.toString uri) "//") then
             .error "Targeted attributes have not been found. Skipped."
           else .ok [("src", GoURL.toString uri)]) := by
  unfold ResourceAndLinkFinder.processResourceToken
  simp only [List.foldl]
  cases urlParse v with
  | error e => rfl
  | ok uri =>
    by_cases hc : (!uri.IsAbs || uri.Scheme == "https" ||
        (uri.Host != "" && goHasPrefix (GoURL.toString uri) "//")) = true
    · simp [hc, ResourceAndLinkFinder.isTargetedResourceTokenAttribute]
    · simp [hc, ResourceAndLinkFinder.isTargetedResourceTokenAttribute, mapSet]

theorem resourceCond_false_iff (uri : GoURL) :
    ((!uri.IsAbs || uri.Scheme == "https" ||
        (uri.Host != "" && goHasPrefix (GoURL.toString uri) "//")) = false) ↔
    (uri.IsAbs = true ∧ uri.Scheme ≠ "https" ∧
      ¬(uri.Host ≠ "" ∧ goHasPrefix (GoURL.toString uri) "//" = true)) := by
  simp only [Bool.or_eq_false_iff, Bool.and_eq_false_iff, Bool.not_eq_true',
    Bool.not_eq_true, beq_eq_false_iff_ne, bne_eq_false_iff_eq, ne_eq]
  constructor
  · rintro ⟨⟨habs, hsch⟩, hcc⟩
    refine ⟨by simpa using habs, hsch, ?_⟩
    rintro ⟨hh, hp⟩
    rcases hcc with h | h
    · exact hh h
    · rw [h] at hp
      cases hp
  · rintro ⟨habs, hsch, hcc⟩
    refine ⟨⟨by simpa using habs, hsch⟩, ?_⟩
    by_cases hh : uri.Host = ""
    · exact Or.inl hh
    · right
      by_cases hp : goHasPrefix (GoURL.toString uri) "//" = true
      · exact absurd ⟨hh, hp⟩ hcc
      · simpa using hp

/-- Claim C4 amended: a candidate attribute value on a resource-bearing tag
is reported as an insecure resource iff it parses as an absolute URL whose
scheme is anything other than the encrypted scheme `https` (not only the
insecure transport variant `http`), and it is not a host-carrying
scheme-relative `//...` form; the reported URL is the parsed candidate's
string form. -/
theorem processResourceToken_accepts_iff (v : String) :
    (∃ u, ResourceAndLinkFinder.processResourceToken
        ⟨.SelfClosingTagToken, "img", [⟨"src", v⟩]⟩ = .ok [("src", u)]) ↔
    (∃ uri, urlParse v = .ok uri ∧ uri.IsAbs = true ∧ uri.Scheme ≠ "https" ∧
       ¬(uri.Host ≠ "" ∧ goHasPrefix (GoURL.toString uri) "//" = true)) := by
  rw [processResourceToken_single]
  cases hv : urlParse v with
  | error e => simp
  | ok uri =>
    by_cases hc : (!uri.IsAbs || uri.Scheme == "https" ||
        (uri.Host != "" && goHasPrefix (GoURL.toString uri) "//")) = true
    · simp only [hc, if_true]
      simp only [Bool.not_eq_false] at hc
      constructor
      · rintro ⟨u, hu⟩
        cases hu
      · rintro ⟨uri', huri', hcond⟩
        rw [Except.ok.injEq] at huri'
        subst huri'
        rw [← resourceCond_false_iff] at hcond
        rw [hc] at hcond
        cases hcond
    · rw [Bool.not_eq_true] at hc
      simp only [hc, if_false]
      constructor
      · rintro ⟨u, _⟩
        exact ⟨uri, rfl, (resourceCond_false_iff uri).mp hc⟩
      · rintro _
        exact ⟨GoURL.toString uri, rfl⟩

/-! ## Claim C5 — the in-scope link condition -/
theorem resolveReference_relative_fields (u ref : GoURL)
    (hs : ref.Scheme = "") (hh : ref.Host = "") (ho : ref.Opaque = "") :
    (resolveReference u ref).Host = u.Host ∧ (resolveReference u ref).Scheme = u.Scheme := by
  unfold resolveReference
  rw [hs, hh, ho]
  simp only [bne_self_eq_false, Bool.or_self, Bool.false_eq_true, if_false, beq_self_eq_true,
    if_true]
  constructor <;> first
  | trivial
  | (split <;> first
      | rfl
      | (split <;> rfl))

theorem toString_slashslash_of_host (u : GoURL)
    (hs : u.Scheme = "") (ho : u.Opaque = "") (hh : u.Host ≠ "") :
    goHasPrefix (GoURL.toString u) "//" = true := by
  have hh2 : (u.Host != "") = true := by simp [bne_iff_ne, hh]
  unfold goHasPrefix GoURL.toString
  rw [hs, ho]
  simp [hh2, String.toList, String.data_append, List.isPrefixOf]

theorem resolveReference_abs_or_host (u ref : GoURL)
    (h : (ref.Scheme != "" || ref.Host != "") = true) :
    (resolveReference u ref).Host = ref.Host ∧
    (resolveReference u ref).Scheme = (if ref.Scheme == "" then u.Scheme else ref.Scheme) := by
  unfold resolveReference
  simp [h]

theorem parseUrlCore_schemeEmpty_opq (schemeL rest rawQuery : String) (fq : Bool) (u : GoURL)
    (h : parseUrlCore schemeL rest rawQuery fq = .ok u) (hs : u.Scheme = "") :
    u.Opaque = "" := by
  unfold parseUrlCore at h
  split at h
  · next hcond =>
    cases h
    dsimp only at hs
    rw [hs] at hcond
    simp at hcond
  · split at h
    · cases h
    · split at h
      · cases h
        rfl
      · cases h
        rfl

theorem urlParse_schemeEmpty_opq (s : String) (u : GoURL)
    (h : urlParse s = .ok u) (hs : u.Scheme = "") : u.Opaque = "" := by
  unfold urlParse at h
  cases hp : parseUrl (cutChar s '#').1 with
  | error e =>
    rw [hp] at h
    cases h
  | ok url =>
    rw [hp] at h
    cases h
    dsimp only at hs ⊢
    unfold parseUrl at hp
    by_cases hstar : ((cutChar s '#').1 == "*") = true
    · rw [if_pos hstar] at hp
      cases hp
      rfl
    · rw [if_neg (by simp [hstar])] at hp
      cases hg : getscheme (cutChar s '#').1 with
      | error e =>
        rw [hg] at hp
        cases hp
      | ok p =>
        obtain ⟨s0, r0⟩ := p
        rw [hg] at hp
        exact parseUrlCore_schemeEmpty_opq _ _ _ _ _ hp hs

theorem processLinkToken_single (v base : String) :
    ResourceAndLinkFinder.processLinkToken ⟨.StartTagToken, "a", [⟨"href", v⟩]⟩ base
      = (if goHasPrefix v "#" then .error "Url is an anchor. Skipped."
         else
           match urlParse v with
           | .error e => .error e
           | .ok uri =>
             match urlParse base with
             | .error e => .error e
             | .ok baseUrl =>
               if uri.IsAbs || (uri.Host != "" && goHasPrefix (GoURL.toString uri) "//") then
                 if goTrimPrefix uri.Host "www." != goTrimPrefix baseUrl.Host "www." then
                   .error "Url is expernal. Skipped."
                 else .ok (goTrimSuffix (GoURL.toString uri) "/")
               else
                 .ok (goTrimSuffix
                   (GoURL.toString (ResourceAndLinkFinder.convertToAbsolute uri baseUrl)) "/")) :=
  rfl

/-- Claim C5: for a parsed, absolute base URL, an anchor token's href
candidate is accepted as an in-scope link exactly when it does not start
with `#`, it parses, and its resolution against the base is an absolute
URL whose host equals the base's host when a leading `www.` is ignored
on both sides. -/
theorem processLinkToken_inScope_iff (v base : String) (b : GoURL)
    (hb : urlParse base = .ok b) (habs : b.IsAbs = true) :
    (∃ u, ResourceAndLinkFinder.processLinkToken ⟨.StartTagToken, "a", [⟨"href", v⟩]⟩ base
        = .ok u) ↔
    (goHasPrefix v "#" = false ∧ ∃ uri, urlParse v = .ok uri ∧
       (resolveReference b uri).IsAbs = true ∧
       goTrimPrefix (resolveReference b uri).Host "www." = goTrimPrefix b.Host "www.") := by
  rw [processLinkToken_single]
  by_cases hpre : goHasPrefix v "#" = true
  · rw [if_pos hpre]
    simp [hpre]
  · rw [if_neg (by simp [hpre])]
    rw [Bool.not_eq_true] at hpre
    cases hv : urlParse v with
    | error e =>
      simp [hpre]
    | ok uri =>
      rw [hb]
      dsimp only
      by_cases hcond :
          (uri.IsAbs || (uri.Host != "" && goHasPrefix (GoURL.toString uri) "//")) = true
      · have hsh : (uri.Scheme != "" || uri.Host != "") = true := by
          rcases Bool.or_eq_true_iff.mp hcond with h | h
          · exact Bool.or_eq_true_iff.mpr (Or.inl h)
          · exact Bool.or_eq_true_iff.mpr (Or.inr (Bool.and_eq_true_iff.mp h).1)
        obtain ⟨hH, hS⟩ := resolveReference_abs_or_host b uri hsh
        have hAbs : (resolveReference b uri).IsAbs = true := by
          unfold GoURL.IsAbs
          rw [hS]
          by_cases hse : (uri.Scheme == "") = true
          · rw [if_pos hse]
            exact habs
          · rw [if_neg (by simp [hse])]
            simpa using hse
        rw [if_pos hcond]
        by_cases hw : (goTrimPrefix uri.Host "www." != goTrimPrefix b.Host "www.") = true
        · rw [if_pos hw]
          constructor
          · rintro ⟨u, hu⟩
            cases hu
          · rintro ⟨_, uri', huri', _, heq⟩
            rw [Except.ok.injEq] at huri'
            subst huri'
            rw [hH] at heq
            exact absurd heq (bne_iff_ne.mp hw)
        · rw [if_neg (by simp [hw])]
          have hw2 : goTrimPrefix uri.Host "www." = goTrimPrefix b.Host "www." := by
            simpa using hw
          constructor
          · rintro _
            exact ⟨hpre, uri, rfl, hAbs, by rw [hH]; exact hw2⟩
          · rintro _
            exact ⟨_, rfl⟩
      · rw [if_neg (by simp [hcond])]
        rw [Bool.not_eq_true] at hcond
        rcases Bool.or_eq_false_iff.mp hcond with ⟨habs0, hrest⟩
        have hse : uri.Scheme = "" := by
          have := habs0
          unfold GoURL.IsAbs at this
          simpa [bne_eq_false_iff_eq] using this
        have hOpq : uri.Opaque = "" := urlParse_schemeEmpty_opq v uri hv hse
        have hHost : uri.Host = "" := by
          by_contra hne
          have hpp := toString_slashslash_of_host uri hse hOpq hne
          rw [Bool.and_eq_false_iff] at hrest
          rcases hrest with h | h
          · exact hne (by simpa [bne_eq_false_iff_eq] using h)
          · rw [hpp] at h
            cases h
        obtain ⟨hH, hS⟩ := resolveReference_relative_fields b uri hse hHost hOpq
        constructor
        · rintro _
          refine ⟨hpre, uri, rfl, ?_, by rw [hH]⟩
          unfold GoURL.IsAbs
          rw [hS]
          exact habs
        · rintro _
          exact ⟨_, rfl⟩


/-- Claim C5 witness: base `https://www.example.com` with
`href="https://example.com/page/"` is accepted, and the classifier
returns `https://example.com/page` (www.-insensitive match, one trailing
slash stripped). -/
theorem processLinkToken_inScope_iff_witness :
  urlParse "https://www.example.com" = .ok { Scheme := "https", Host := "www.example.com" } ∧
  GoURL.IsAbs { Scheme := "https", Host := "www.example.com" } = true ∧
  (∃ u, ResourceAndLinkFinder.processLinkToken
      ⟨.StartTagToken, "a", [⟨"href", "https://example.com/page/"⟩]⟩ "https://www.example.com"
    = .ok u) ∧
  ResourceAndLinkFinder.processLinkToken
      ⟨.StartTagToken, "a", [⟨"href", "https://example.com/page/"⟩]⟩ "https://www.example.com"
    = .ok "https://example.com/page" :=
  ⟨rfl, rfl,
    (processLinkToken_inScope_iff "https://example.com/page/" "https://www.example.com"
        { Scheme := "https", Host := "www.example.com" } rfl rfl).mpr
      ⟨rfl, { Scheme := "https", Host := "example.com", Path := "/page/" }, rfl, rfl, rfl⟩,
    rfl⟩

/-- Claim C10 amended: a relative, non-anchor candidate (parses, no
scheme, no host, does not begin with `#`) is never subjected to the host
comparison — it is always accepted as the resolution against the parsed
base (`convertToAbsolute`, i.e. `ResolveReference`) with one trailing
`/` stripped. -/
theorem processLinkToken_relative_resolved (v base : String) (uri b : GoURL)
    (hv : urlParse v = .ok uri) (hs : uri.Scheme = "") (hh : uri.Host = "")
    (hna : goHasPrefix v "#" = false) (hb : urlParse base = .ok b) :
    ResourceAndLinkFinder.processLinkToken ⟨.StartTagToken, "a", [⟨"href", v⟩]⟩ base
      = .ok (goTrimSuffix
          (GoURL.toString (ResourceAndLinkFinder.convertToAbsolute uri b)) "/") := by
  rw [processLinkToken_single]
  rw [if_neg (by simp [hna])]
  rw [hv, hb]
  dsimp only
  have h1 : uri.IsAbs = false := by simp [GoURL.IsAbs, hs]
  have h2 : (uri.Host != "") = false := by simp [hh]
  rw [if_neg (by simp [h1, h2])]

/-- Claim C10 witness: an empty `href=""` parses to the empty relative
reference and is accepted as the base page's own URL — the page is
re-submitted to the queue. -/
theorem processLinkToken_relative_resolved_witness :
  urlParse "" = .ok {} ∧
  ({} : GoURL).Scheme = "" ∧ ({} : GoURL).Host = "" ∧ goHasPrefix "" "#" = false ∧
  urlParse "https://example.com/page"
    = .ok { Scheme := "https", Host := "example.com", Path := "/page" } ∧
  ResourceAndLinkFinder.processLinkToken
      ⟨.StartTagToken, "a", [⟨"href", ""⟩]⟩ "https://example.com/page"
    = .ok "https://example.com/page" :=
  ⟨rfl, rfl, rfl, rfl, rfl, by
    rw [processLinkToken_relative_resolved "" "https://example.com/page" {}
      { Scheme := "https", Host := "example.com", Path := "/page" } rfl rfl rfl rfl rfl]
    rfl⟩
